import Mathlib

/-!
Verification development for the prompt-registry source-identity,
migration, URL-probing and OLAF-adapter modules.

The TypeScript modules are embedded shallowly:

* `src/utils/sourceIdUtils.ts` — URL normalization (current and legacy),
  branch normalization, hub source-id generation (`generateHubSourceId`,
  `generateLegacyHubSourceId`).  The Node `crypto` SHA-256 digest is
  modelled by a full executable SHA-256 over `Nat` words reduced mod 2^32.
* `src/migration/sourceIdMigration.ts` (shown as `migrateConfigSources` /
  `isHubGeneratedId`) — the per-source id-rewrite step of the
  sourceId-normalization-v2 migration.
* `src/services/MigrationRegistry.ts` — `runMigration` over an explicit
  persisted migration-state map.
* `src/services/UrlValidator.ts` — `checkUrl` / `checkUrls` severity
  classification and the recursive redirect follower `makeRequest`,
  modelled with explicit fuel.
* `src/adapters/OlafCompetenciesAdapter.ts` — manifest location,
  per-manifest skip-on-error collection, and `downloadBundle`.

Platform functions (the WHATWG URL parser behind `new URL`, UTF-8
encoding behind `crypto.update`, JS string/regex primitives) are modelled
directly; each model notes the subset of platform behaviour it covers.
-/

set_option maxRecDepth 100000

namespace PromptRegistry

/-! ## SHA-256 (model of Node `crypto.createHash('sha256')`)

A complete executable SHA-256 over natural numbers, with 32-bit words
represented as `Nat` values reduced modulo `2^32`. -/

/-- Reduce a natural number to a 32-bit word. -/
def w32 (x : Nat) : Nat := x % 4294967296

/-- Right rotation of a 32-bit word by `n` bits. -/
def rotr32 (n x : Nat) : Nat := w32 ((x >>> n) ||| (x <<< (32 - n)))

/-- Bitwise complement within 32 bits. -/
def not32 (x : Nat) : Nat := x ^^^ 4294967295

/-- SHA-256 big sigma-0. -/
def bsig0 (x : Nat) : Nat := rotr32 2 x ^^^ rotr32 13 x ^^^ rotr32 22 x

/-- SHA-256 big sigma-1. -/
def bsig1 (x : Nat) : Nat := rotr32 6 x ^^^ rotr32 11 x ^^^ rotr32 25 x

/-- SHA-256 small sigma-0. -/
def ssig0 (x : Nat) : Nat := rotr32 7 x ^^^ rotr32 18 x ^^^ (x >>> 3)

/-- SHA-256 small sigma-1. -/
def ssig1 (x : Nat) : Nat := rotr32 17 x ^^^ rotr32 19 x ^^^ (x >>> 10)

/-- SHA-256 choose function. -/
def shaCh (x y z : Nat) : Nat := (x &&& y) ^^^ (not32 x &&& z)

/-- SHA-256 majority function. -/
def shaMaj (x y z : Nat) : Nat := (x &&& y) ^^^ (x &&& z) ^^^ (y &&& z)

/-- The 64 SHA-256 round constants. -/
def shaK : List Nat :=
  [1116352408, 1899447441, 3049323471, 3921009573, 961987163,
   1508970993, 2453635748, 2870763221, 3624381080, 310598401,
   607225278, 1426881987, 1925078388, 2162078206, 2614888103,
   3248222580, 3835390401, 4022224774, 264347078, 604807628,
   770255983, 1249150122, 1555081692, 1996064986, 2554220882,
   2821834349, 2952996808, 3210313671, 3336571891, 3584528711,
   113926993, 338241895, 666307205, 773529912, 1294757372,
   1396182291, 1695183700, 1986661051, 2177026350, 2456956037,
   2730485921, 2820302411, 3259730800, 3345764771, 3516065817,
   3600352804, 4094571909, 275423344, 430227734, 506948616,
   659060556, 883997877, 958139571, 1322822218, 1537002063,
   1747873779, 1955562222, 2024104815, 2227730452, 2361852424,
   2428436474, 2756734187, 3204031479, 3329325298]

/-- The SHA-256 initial hash state. -/
def shaH0 : List Nat :=
  [1779033703, 3144134277, 1013904242, 2773480762, 1359893119,
   2600822924, 528734635, 1541459225]

/-- Big-endian byte expansion of a natural number into `k` bytes. -/
def beBytes : Nat → Nat → List Nat
  | 0, _ => []
  | k + 1, n => beBytes k (n / 256) ++ [n % 256]

/-- Group bytes into big-endian 32-bit words, four bytes per word. -/
def bytesToWords : List Nat → List Nat
  | a :: b :: c :: d :: rest => (a * 16777216 + b * 65536 + c * 256 + d) :: bytesToWords rest
  | _ => []

/-- SHA-256 message padding: append `0x80`, zero bytes, and the 64-bit
big-endian bit length, reaching a multiple of 64 bytes. -/
def padBytes (msg : List Nat) : List Nat :=
  let L := msg.length
  let zeros := (64 - ((L + 9) % 64)) % 64
  msg ++ [0x80] ++ List.replicate zeros 0 ++ beBytes 8 (8 * L)

/-- Split a byte list into successive 64-byte blocks; the fuel is an upper
bound on the number of blocks, so structural recursion suffices. -/
def toBlocksAux : Nat → List Nat → List (List Nat)
  | 0, _ => []
  | _ + 1, [] => []
  | n + 1, b :: rest => ((b :: rest).take 64) :: toBlocksAux n ((b :: rest).drop 64)

/-- Split a byte list into successive 64-byte blocks. -/
def toBlocks (bs : List Nat) : List (List Nat) := toBlocksAux bs.length bs

/-- Extend the 16 words of one block to the full 64-word message schedule. -/
def schedule (block : List Nat) : List Nat :=
  let full := (List.range 48).foldl
    (fun (w : Array Nat) _ =>
      let i := w.size
      w.push (w32 (w.get! (i - 16) + ssig0 (w.get! (i - 15)) + w.get! (i - 7) + ssig1 (w.get! (i - 2)))))
    block.toArray
  full.toList

/-- One SHA-256 compression round on the eight-word working state. -/
def roundFn (st : List Nat) (kw : Nat × Nat) : List Nat :=
  match st with
  | [a, b, c, d, e, f, g, h] =>
    let t1 := w32 (h + bsig1 e + shaCh e f g + kw.1 + kw.2)
    let t2 := w32 (bsig0 a + shaMaj a b c)
    [w32 (t1 + t2), a, b, c, w32 (d + t1), e, f, g]
  | other => other

/-- Compress one 16-word block into the running hash state. -/
def compressBlock (h0 : List Nat) (block : List Nat) : List Nat :=
  let ws := schedule block
  let st := (shaK.zip ws).foldl roundFn h0
  (h0.zip st).map (fun p => w32 (p.1 + p.2))

/-- SHA-256 digest of a byte list, as 32 bytes. -/
def sha256Bytes (msg : List Nat) : List Nat :=
  let blocks := (toBlocks (padBytes msg)).map bytesToWords
  let hs := blocks.foldl compressBlock shaH0
  (hs.map (beBytes 4)).flatten

/-- One lowercase hexadecimal digit. -/
def hexDigit (n : Nat) : Char := if n < 10 then Char.ofNat (48 + n) else Char.ofNat (87 + n)

/-- Two-character lowercase hexadecimal form of one byte. -/
def byteToHex (b : Nat) : List Char := [hexDigit (b / 16), hexDigit (b % 16)]

/-- Lowercase hexadecimal string for a byte list. -/
def bytesToHex (bs : List Nat) : String := String.mk ((bs.map byteToHex).flatten)

/-- UTF-8 encoding of one character, as bytes (model of Node string
encoding used by `crypto.update`). -/
def utf8Encode (c : Char) : List Nat :=
  let n := c.toNat
  if n < 128 then [n]
  else if n < 2048 then [192 + n / 64, 128 + n % 64]
  else if n < 65536 then [224 + n / 4096, 128 + (n / 64) % 64, 128 + n % 64]
  else [240 + n / 262144, 128 + (n / 4096) % 64, 128 + (n / 64) % 64, 128 + n % 64]

/-- UTF-8 bytes of a string. -/
def strBytes (s : String) : List Nat := (s.data.map utf8Encode).flatten

/-- Model of `crypto.createHash('sha256').update(s).digest('hex')`:
the lowercase 64-character hex digest of the UTF-8 bytes of `s`. -/
def sha256Hex (s : String) : String := bytesToHex (sha256Bytes (strBytes s))

example : sha256Hex "" = "e3b0c44298fc1c149afbf4c8996fb92427ae41e4649b934ca495991b7852b855" := by decide

example : sha256Hex "abc" = "ba7816bf8f01cfea414140de5dae2223b00361a396177a9cb410ff61f20015ad" := by decide

example :
    sha256Hex "gitlab:gitlab.com/group/subgroup/project-with-a-long-name:feature/branch-name:custom/collections/path"
      = "b7aa19271d0a464edebbb15443b2453c51b4b562f5e5826afd51eede9fb3514d" := by decide

/-! ## URL parsing (model of the WHATWG parser behind Node `new URL`)

The model covers absolute URLs written in the common form
`scheme://host[:port]/path[?query][#fragment]` without percent-encoding,
dot segments, backslash separators, tab or newline stripping, IPv6
bracket hosts, or non-ASCII host mapping; within that subset it agrees
with the WHATWG parser on validity, `protocol`, `hostname` and
`pathname`.  A non-special scheme (anything other than http/https here)
parses with an opaque body, since the embedded code only reads its
scheme. -/

/-- ASCII letter test. -/
def isAsciiAlpha (c : Char) : Bool :=
  (('a' ≤ c) && (c ≤ 'z')) || (('A' ≤ c) && (c ≤ 'Z'))

/-- Characters allowed inside a URL scheme after the first letter. -/
def isSchemeChar (c : Char) : Bool :=
  isAsciiAlpha c || c.isDigit || c = '+' || c = '-' || c = '.'

/-- Split a candidate URL at the colon terminating its scheme. -/
def splitScheme (cs : List Char) : Option (List Char × List Char) :=
  let pre := cs.takeWhile isSchemeChar
  match pre, cs.dropWhile isSchemeChar with
  | c0 :: _, ':' :: r => if isAsciiAlpha c0 then some (pre, r) else none
  | _, _ => none

/-- Characters the WHATWG parser rejects inside a hostname. -/
def forbiddenHostChar (c : Char) : Bool :=
  c = ' ' || c = '#' || c = '/' || c = ':' || c = '?' || c = '@' ||
  c = '[' || c = '\\' || c = ']' || c = '^' || c = '|' || c = '<' ||
  c = '>' || c = '\"' || c = '%' || decide (c.toNat < 33)

/-- The part of an authority after its last at sign (drops userinfo). -/
def afterLastAt (cs : List Char) : List Char :=
  cs.foldl (fun acc c => if c = '@' then [] else acc ++ [c]) []

/-- Components of a parsed URL the embedded code reads: the lowercased
scheme (`protocol` minus colon), the hostname as written, and the
pathname (at least `/` for http and https URLs). -/
structure ParsedUrl where
  scheme : String
  host : String
  path : String
deriving DecidableEq, Repr

/-- Model of `new URL(s)`: `none` exactly when the constructor throws. -/
def parseUrl (s : String) : Option ParsedUrl :=
  match splitScheme s.data with
  | none => none
  | some (sch, rest) =>
    let scheme := String.mk (sch.map Char.toLower)
    if scheme = "http" ∨ scheme = "https" then
      match rest with
      | '/' :: '/' :: r =>
        let notAuthEnd : Char → Bool := fun c => !(c = '/' || c = '?' || c = '#')
        let auth := r.takeWhile notAuthEnd
        let afterAuth := r.dropWhile notAuthEnd
        let hostport := afterLastAt auth
        let host := hostport.takeWhile (fun c => c ≠ ':')
        let portOk :=
          match hostport.dropWhile (fun c => c ≠ ':') with
          | [] => true
          | _ :: ds => ds.all Char.isDigit
        if !host.isEmpty && host.all (fun c => !forbiddenHostChar c) && portOk then
          let path := afterAuth.takeWhile (fun c => !(c = '?' || c = '#'))
          some ⟨scheme, String.mk host, if path = [] then "/" else String.mk path⟩
        else none
      | _ => none
    else
      some ⟨scheme, "", String.mk rest⟩

/-! ## sourceIdUtils.ts -/

/-- Model of JS `toLowerCase()` on the ASCII range. -/
def toLowerStr (s : String) : String := String.mk (s.data.map Char.toLower)

/-- Model of `replace(/\/+$/, '')`: remove every trailing slash. -/
def stripTrailingSlashes (s : String) : String :=
  String.mk ((s.data.reverse.dropWhile (fun c => c = '/')).reverse)

/-- Model of `replace(/^https?:\/\//, '')` (case-sensitive, as in the
source regexes). -/
def dropHttpScheme (s : String) : String :=
  let cs := s.data
  if cs.take 8 = ('h' :: 't' :: 't' :: 'p' :: 's' :: ':' :: '/' :: '/' :: []) then String.mk (cs.drop 8)
  else if cs.take 7 = ('h' :: 't' :: 't' :: 'p' :: ':' :: '/' :: '/' :: []) then String.mk (cs.drop 7)
  else s

/-- Model of `replace(/^([^\/]+)/, host => host.toLowerCase())`:
lowercase the leading run of non-slash characters. -/
def lowerHostOnly (s : String) : String :=
  let cs := s.data
  String.mk ((cs.takeWhile (fun c => c ≠ '/')).map Char.toLower ++ cs.dropWhile (fun c => c ≠ '/'))

/-- First `n` characters of a string, the model of `substring(0, n)`. -/
def strTake (s : String) (n : Nat) : String := String.mk (s.data.take n)

/-- Embedding of `normalizeUrl` (sourceIdUtils.ts:37): lowercase hostname
and pathname, drop trailing slashes; on a parse failure fall back to
lowercasing everything, dropping an `http(s)://` prefix and trailing
slashes. -/
def normalizeUrl (url : String) : String :=
  match parseUrl url with
  | some p => toLowerStr p.host ++ stripTrailingSlashes (toLowerStr p.path)
  | none => stripTrailingSlashes (dropHttpScheme (toLowerStr url))

/-- Embedding of `normalizeUrlLegacy` (sourceIdUtils.ts:65): lowercase
the hostname only, preserving path case; the fallback drops an
`http(s)://` prefix case-sensitively, drops trailing slashes and
lowercases only the leading host segment. -/
def normalizeUrlLegacy (url : String) : String :=
  match parseUrl url with
  | some p => toLowerStr p.host ++ stripTrailingSlashes p.path
  | none => lowerHostOnly (stripTrailingSlashes (dropHttpScheme url))

/-- Embedding of the `SourceIdConfig` interface; absent optional fields
are `none`. -/
structure SourceIdConfig where
  branch : Option String := none
  collectionsPath : Option String := none
deriving DecidableEq, Repr

/-- Model of `config?.branch` for an optional config object. -/
def configBranch : Option SourceIdConfig → Option String
  | none => none
  | some c => c.branch

/-- Model of `config?.collectionsPath` for an optional config object. -/
def configCollectionsPath : Option SourceIdConfig → Option String
  | none => none
  | some c => c.collectionsPath

/-- Model of the JS expression `x || d` for a possibly-undefined string
`x`: the default is taken when `x` is undefined or empty (falsy). -/
def jsOrElse (x : Option String) (d : String) : String :=
  match x with
  | none => d
  | some s => if s = "" then d else s

/-- Embedding of `normalizeBranch` (sourceIdUtils.ts:136): the guard
`!branch || branch === 'master'` treats an undefined branch, an empty
branch and `master` alike as `main`. -/
def normalizeBranch (branch : Option String) : String :=
  match branch with
  | none => "main"
  | some b => if b = "" ∨ b = "master" then "main" else b

/-- Embedding of `generateHubSourceId` (sourceIdUtils.ts:109). -/
def generateHubSourceId (sourceType url : String) (config : Option SourceIdConfig) : String :=
  let normalizedUrl := normalizeUrl url
  let branch := normalizeBranch (configBranch config)
  let collectionsPath := jsOrElse (configCollectionsPath config) "collections"
  let hash := strTake (sha256Hex (sourceType ++ ":" ++ normalizedUrl ++ ":" ++ branch ++ ":" ++ collectionsPath)) 12
  sourceType ++ "-" ++ hash

/-- Embedding of `generateLegacyHubSourceId` (sourceIdUtils.ts:210). -/
def generateLegacyHubSourceId (sourceType url : String) (config : Option SourceIdConfig) :
    Option String :=
  let legacyNormalized := normalizeUrlLegacy url
  let currentNormalized := normalizeUrl url
  if legacyNormalized = currentNormalized then none
  else
    let branch := normalizeBranch (configBranch config)
    let collectionsPath := jsOrElse (configCollectionsPath config) "collections"
    some (sourceType ++ "-" ++
      strTake (sha256Hex (sourceType ++ ":" ++ legacyNormalized ++ ":" ++ branch ++ ":" ++ collectionsPath)) 12)

example : normalizeUrl "HTTPS://GitHub.com/Owner/Repo/" = "github.com/owner/repo" := by decide

example : normalizeUrl "http://example.com" = "example.com" := by decide

example : normalizeUrl "https://GitHub.COM/OWNER/REPO" = "github.com/owner/repo" := by decide

example : normalizeUrlLegacy "https://GitHub.com/Owner/Repo/" = "github.com/Owner/Repo" := by decide

example : parseUrl "not-a-valid-url" = none := by decide

example : (parseUrl "ftp://example.com/file").map ParsedUrl.scheme = some "ftp" := by decide

example : normalizeUrl "   invalid url   " = "   invalid url   " := by decide

example : generateHubSourceId "github" "https://github.com/owner/repo" none = "github-2bbe3751c8d5" := by
  decide

/-! ## Claim C1 -/

/-- C1 counterexample: with `config.branch = ""` and
`config.collectionsPath = ""`, the claim's formula hashes
`type:url::` (branch taken verbatim when present, collectionsPath taken
verbatim when present), but the code treats both falsy strings as absent
and hashes `type:url:main:collections`, so the produced ids differ. -/
theorem c1_counterexample :
    generateHubSourceId "github" "https://github.com/o/r"
        (some { branch := some "", collectionsPath := some "" }) ≠
      "github" ++ "-" ++
        strTake (sha256Hex ("github" ++ ":" ++ normalizeUrl "https://github.com/o/r" ++
          ":" ++ "" ++ ":" ++ "")) 12 := by
  decide

/-- C1 (amended): `generateHubSourceId t u config` equals
`t ++ "-" ++` the first 12 hex characters of the SHA-256 digest of
`t:N:b:p`, where `N` is the normalized URL, `b` is `main` when the branch
is absent, empty, or equal to `master` and otherwise the branch, and `p`
is the collectionsPath when present and non-empty and otherwise
`collections`; being a function, two calls with identical inputs return
the same id. -/
theorem c1_generateHubSourceId_formula (t u : String) (cfg : Option SourceIdConfig) :
    generateHubSourceId t u cfg =
      t ++ "-" ++
        strTake (sha256Hex (t ++ ":" ++ normalizeUrl u ++ ":" ++
          (match configBranch cfg with
           | none => "main"
           | some b => if b = "" ∨ b = "master" then "main" else b) ++ ":" ++
          (match configCollectionsPath cfg with
           | none => "collections"
           | some p => if p = "" then "collections" else p))) 12 ∧
    generateHubSourceId t u cfg = generateHubSourceId t u cfg := by
  refine ⟨?_, rfl⟩
  cases cfg with
  | none => rfl
  | some c =>
    cases hb : c.branch <;> cases hp : c.collectionsPath <;>
      simp [generateHubSourceId, normalizeBranch, configBranch, configCollectionsPath,
        jsOrElse, hb, hp]

/-! ## Claim C6 -/

/-- C6: the generated id is invariant under branch and collections-path
normalization: no config, branch `main` and branch `master` give the same
id, and an explicit `collections` path gives the same id as an absent
collections path. -/
theorem c6_branch_path_invariance (t u : String) (b : Option String) :
    generateHubSourceId t u none = generateHubSourceId t u (some { branch := some "main" }) ∧
    generateHubSourceId t u none = generateHubSourceId t u (some { branch := some "master" }) ∧
    generateHubSourceId t u (some { branch := b, collectionsPath := some "collections" }) =
      generateHubSourceId t u (some { branch := b, collectionsPath := none }) := by
  refine ⟨rfl, rfl, ?_⟩
  simp [generateHubSourceId, configBranch, configCollectionsPath, jsOrElse]

/-! ## Claim C4 -/

/-- C4: `generateLegacyHubSourceId` returns `undefined` exactly when the
legacy URL normalization coincides with the current one — in particular
whenever the parsed pathname is already lowercase — and otherwise returns
the type prefix plus the first 12 hex characters of the SHA-256 digest
over the legacy-normalized URL with the same branch and collections-path
normalization as the current id. -/
theorem c4_generateLegacyHubSourceId_spec (t u : String) (cfg : Option SourceIdConfig) :
    (generateLegacyHubSourceId t u cfg = none ↔ normalizeUrlLegacy u = normalizeUrl u) ∧
    (normalizeUrlLegacy u ≠ normalizeUrl u →
      generateLegacyHubSourceId t u cfg =
        some (t ++ "-" ++
          strTake (sha256Hex (t ++ ":" ++ normalizeUrlLegacy u ++ ":" ++
            normalizeBranch (configBranch cfg) ++ ":" ++
            jsOrElse (configCollectionsPath cfg) "collections")) 12)) ∧
    (∀ p, parseUrl u = some p → toLowerStr p.path = p.path →
      generateLegacyHubSourceId t u cfg = none) := by
  by_cases h : normalizeUrlLegacy u = normalizeUrl u
  · refine ⟨by simp [generateLegacyHubSourceId, h], fun hne => absurd h hne, fun p _ _ => ?_⟩
    simp [generateLegacyHubSourceId, h]
  · refine ⟨by simp [generateLegacyHubSourceId, h], fun _ => by simp [generateLegacyHubSourceId, h],
      fun p hp hlow => ?_⟩
    exact absurd (by simp [normalizeUrlLegacy, normalizeUrl, hp, hlow]) h

/-- C4 witness: for `https://github.com/Owner/Repo` the two normalizations
differ and the legacy id is the hash over the legacy-normalized URL, while
for the already-lowercase `https://github.com/owner/repo` the legacy id is
`undefined`. -/
theorem c4_witness :
    generateLegacyHubSourceId "github" "https://github.com/Owner/Repo" none =
      some ("github" ++ "-" ++
        strTake (sha256Hex ("github" ++ ":" ++ normalizeUrlLegacy "https://github.com/Owner/Repo" ++
          ":" ++ normalizeBranch (configBranch none) ++ ":" ++
          jsOrElse (configCollectionsPath none) "collections")) 12) ∧
    generateLegacyHubSourceId "github" "https://github.com/owner/repo" none = none := by
  constructor
  · exact (c4_generateLegacyHubSourceId_spec "github" "https://github.com/Owner/Repo" none).2.1
      (by decide)
  · exact (c4_generateLegacyHubSourceId_spec "github" "https://github.com/owner/repo" none).2.2
      ⟨"https", "github.com", "/owner/repo"⟩ (by decide) (by decide)

/-! ## sourceIdMigration: migrateConfigSources / isHubGeneratedId -/

/-- Lowercase ASCII letter, the class `[a-z]`. -/
def isLowerAlpha (c : Char) : Bool := ('a' ≤ c) && (c ≤ 'z')

/-- Lowercase hex digit, the class `[a-f0-9]`. -/
def isLowerHexDigit (c : Char) : Bool :=
  (('a' ≤ c) && (c ≤ 'f')) || (('0' ≤ c) && (c ≤ '9'))

/-- Embedding of `isHubGeneratedId`: the anchored regex
`[a-z]+-[a-f0-9]{12}` matched against the whole id.  Neither character
class contains a dash and the hex run is exactly twelve characters long,
so a match decomposes uniquely as a nonempty lowercase-letter run, one
dash at position `length - 13`, and twelve hex characters at the end. -/
def isHubGeneratedId (id : String) : Bool :=
  let cs := id.data
  let n := cs.length
  decide (14 ≤ n) && (cs.take (n - 13)).all isLowerAlpha &&
    (match cs.drop (n - 13) with
     | '-' :: rest => rest.all isLowerHexDigit
     | _ => false)

example : isHubGeneratedId "github-2bbe3751c8d5" = true := by decide

example : isHubGeneratedId "hub-my-hub-github-source" = false := by decide

example : isHubGeneratedId "github-2BBE3751C8D5" = false := by decide

/-- A configured source as read by the migration: its stored id, display
name, source type, URL, and optional config. -/
structure ConfigSource where
  id : String
  name : String
  type : String
  url : String
  config : Option SourceIdConfig
deriving DecidableEq, Repr

/-- The config object literal the migration passes to the id generators:
`\x7b branch: source.config?.branch, collectionsPath: source.config?.collectionsPath \x7d`. -/
def sourceIdConfigOf (s : ConfigSource) : Option SourceIdConfig :=
  some { branch := configBranch s.config, collectionsPath := configCollectionsPath s.config }

/-- Model of JS `Map.set`: replace the value of an existing key in place,
otherwise append the pair in insertion order. -/
def setEntry (m : List (String × String)) (k v : String) : List (String × String) :=
  if m.any (fun p => p.1 == k) then m.map (fun p => if p.1 = k then (k, v) else p)
  else m ++ [(k, v)]

/-- Embedding of one iteration of the `migrateConfigSources` loop over a
single source: skip ids that are not hub-generated; recompute the current
id; on a mismatch recompute the legacy id; rewrite and record the pair
only when the stored id is exactly the (truthy) legacy id. -/
def migrateStep (acc : List (String × String)) (s : ConfigSource) :
    List (String × String) × ConfigSource :=
  if isHubGeneratedId s.id then
    let newId := generateHubSourceId s.type s.url (sourceIdConfigOf s)
    if s.id ≠ newId then
      match generateLegacyHubSourceId s.type s.url (sourceIdConfigOf s) with
      | some legacyId =>
        if legacyId ≠ "" ∧ s.id = legacyId then
          (setEntry acc s.id newId, { s with id := newId })
        else (acc, s)
      | none => (acc, s)
    else (acc, s)
  else (acc, s)

/-- Embedding of `migrateConfigSources`: fold the per-source step over the
configured sources, accumulating the oldId-to-newId map and the rewritten
source list. -/
def migrateConfigSources (sources : List ConfigSource) :
    List (String × String) × List ConfigSource :=
  sources.foldl (fun st s => let r := migrateStep st.1 s; (r.1, st.2 ++ [r.2])) ([], [])

/-! ## Claim C3 -/

/-- C3: a source's stored id is rewritten (and an oldId-to-newId entry
recorded) exactly when the stored id matches the hub-generated pattern,
the recomputed current id differs from it, and the stored id equals the
recomputed legacy id; a source failing any condition passes through
unchanged with no entry recorded. -/
theorem c3_migration_rewrite_condition (acc : List (String × String)) (s : ConfigSource) :
    (isHubGeneratedId s.id = true ∧
        generateHubSourceId s.type s.url (sourceIdConfigOf s) ≠ s.id ∧
        generateLegacyHubSourceId s.type s.url (sourceIdConfigOf s) = some s.id →
      migrateStep acc s =
        (setEntry acc s.id (generateHubSourceId s.type s.url (sourceIdConfigOf s)),
          { s with id := generateHubSourceId s.type s.url (sourceIdConfigOf s) })) ∧
    (¬(isHubGeneratedId s.id = true ∧
        generateHubSourceId s.type s.url (sourceIdConfigOf s) ≠ s.id ∧
        generateLegacyHubSourceId s.type s.url (sourceIdConfigOf s) = some s.id) →
      migrateStep acc s = (acc, s)) := by
  constructor
  · rintro ⟨hhub, hnew, hleg⟩
    have hne : s.id ≠ "" := by
      intro h0
      rw [h0] at hhub
      exact absurd hhub (by decide)
    simp [migrateStep, hhub, hleg, Ne.symm hnew, hne]
  · intro hnot
    by_cases hhub : isHubGeneratedId s.id
    · by_cases heq : s.id = generateHubSourceId s.type s.url (sourceIdConfigOf s)
      · simp [migrateStep, hhub, heq]
      · rcases hleg : generateLegacyHubSourceId s.type s.url (sourceIdConfigOf s) with _ | l
        · simp [migrateStep, hhub, heq, hleg]
        · have hl : ¬(l ≠ "" ∧ s.id = l) := by
            rintro ⟨-, rfl⟩
            exact hnot ⟨hhub, fun h => heq h.symm, hleg⟩
          simp [migrateStep, hhub, heq, hleg, hl]
    · simp [migrateStep, hhub]

/-- A configured source whose stored id is the legacy id for its inputs. -/
def c3Source : ConfigSource :=
  { id := "github-5ed19c768f41", name := "Acme Prompts", type := "github",
    url := "https://github.com/Owner/Repo", config := none }

/-- C3 witness: a source stored under its legacy id (hub-generated
pattern, current id differs, stored id equals the legacy id) is rewritten
to the current id with the pair recorded. -/
theorem c3_witness :
    migrateStep [] c3Source =
      (setEntry [] c3Source.id (generateHubSourceId c3Source.type c3Source.url (sourceIdConfigOf c3Source)),
        { c3Source with id := generateHubSourceId c3Source.type c3Source.url (sourceIdConfigOf c3Source) }) :=
  (c3_migration_rewrite_condition [] c3Source).1 ⟨by decide, by decide, by decide⟩

/-! ## MigrationRegistry.ts -/

/-- The status of a persisted migration record. -/
inductive MigStatus where
  | pending
  | completed
  | skipped
deriving DecidableEq, Repr

/-- Embedding of the `MigrationRecord` interface. -/
structure MigrationRecord where
  status : MigStatus
  completedAt : Option String := none
  details : Option String := none
deriving DecidableEq, Repr

/-- Read a migration record from the persisted state map. -/
def getRecord (st : List (String × MigrationRecord)) (k : String) : Option MigrationRecord :=
  (st.find? (fun p => p.1 == k)).map (fun p => p.2)

/-- Write a migration record into the persisted state map, replacing in
place or appending (model of `state[name] = record` plus
`globalState.update`). -/
def setRecord (st : List (String × MigrationRecord)) (k : String) (r : MigrationRecord) :
    List (String × MigrationRecord) :=
  if st.any (fun p => p.1 == k) then st.map (fun p => if p.1 = k then (k, r) else p)
  else st ++ [(k, r)]

/-- The guard `record?.status === 'completed' || record?.status === 'skipped'`. -/
def isDone (r : Option MigrationRecord) : Bool :=
  match r with
  | some rec => rec.status == MigStatus.completed || rec.status == MigStatus.skipped
  | none => false

/-- Embedding of `MigrationRegistry.runMigration`: a completed or skipped
record short-circuits without touching the migration function; otherwise
the function runs against the world `w`, and only a successful run marks
the record completed (with the current timestamp `now`); a failure
propagates with the state map untouched. -/
def runMigration {W E : Type} (st : List (String × MigrationRecord)) (name : String)
    (fn : W → Except E W) (w : W) (now : String) :
    List (String × MigrationRecord) × Except E W :=
  if isDone (getRecord st name) then (st, Except.ok w)
  else
    match fn w with
    | Except.ok w2 =>
      (setRecord st name { status := MigStatus.completed, completedAt := some now }, Except.ok w2)
    | Except.error e => (st, Except.error e)

/-! ## Claim C2 -/

/-- C2: when the persisted record is completed or skipped the migration
function is not invoked (the outcome is the same for every `fn`) and the
state is unchanged; otherwise `fn` runs, the record is marked completed
exactly when `fn` succeeds, and on failure the error propagates with the
record untouched, so a subsequent run behaves exactly like the first. -/
theorem c2_runMigration_spec {W E : Type} (st : List (String × MigrationRecord))
    (name : String) (fn : W → Except E W) (w : W) (now : String) :
    (isDone (getRecord st name) = true →
      runMigration st name fn w now = (st, Except.ok w) ∧
      ∀ fn2 : W → Except E W, runMigration st name fn w now = runMigration st name fn2 w now) ∧
    (isDone (getRecord st name) = false →
      (∀ w2, fn w = Except.ok w2 →
        runMigration st name fn w now =
          (setRecord st name { status := MigStatus.completed, completedAt := some now },
            Except.ok w2)) ∧
      (∀ e, fn w = Except.error e →
        runMigration st name fn w now = (st, Except.error e) ∧
        runMigration (runMigration st name fn w now).1 name fn w now =
          runMigration st name fn w now)) := by
  constructor
  · intro hdone
    constructor
    · simp [runMigration, hdone]
    · intro fn2
      simp [runMigration, hdone]
  · intro hdone
    constructor
    · intro w2 hok
      simp [runMigration, hdone, hok]
    · intro e herr
      have h1 : runMigration st name fn w now = (st, Except.error e) := by
        simp [runMigration, hdone, herr]
      exact ⟨h1, by rw [h1]; exact h1⟩

/-- A persisted migration state with one completed record. -/
def c2StateDone : List (String × MigrationRecord) :=
  [("m1", { status := MigStatus.completed, completedAt := some "t0" })]

/-- A migration function that succeeds, incrementing the world counter. -/
def c2FnOk : Nat → Except String Nat := fun n => Except.ok (n + 1)

/-- A migration function that always fails. -/
def c2FnErr : Nat → Except String Nat := fun _ => Except.error "boom"

/-- C2 witness: a completed record short-circuits; a fresh record runs the
function and marks completion on success; a failing function propagates
its error, leaves the state empty, and reruns identically. -/
theorem c2_witness :
    runMigration c2StateDone "m1" c2FnOk 0 "t1" = (c2StateDone, Except.ok 0) ∧
    runMigration [] "m2" c2FnOk 0 "t1" =
      (setRecord [] "m2" { status := MigStatus.completed, completedAt := some "t1" },
        Except.ok 1) ∧
    runMigration [] "m2" c2FnErr 0 "t1" = ([], Except.error "boom") :=
  ⟨((c2_runMigration_spec c2StateDone "m1" c2FnOk 0 "t1").1 (by decide)).1,
   ((c2_runMigration_spec [] "m2" c2FnOk 0 "t1").2 (by decide)).1 1 rfl,
   (((c2_runMigration_spec [] "m2" c2FnErr 0 "t1").2 (by decide)).2 "boom" rfl).1⟩

/-! ## UrlValidator.ts -/

/-- The three severities a URL check can produce. -/
inductive Severity where
  | success
  | warning
  | error
deriving DecidableEq, Repr

/-- Embedding of the `UrlCheckResult` interface. -/
structure UrlCheckResult where
  url : String
  accessible : Bool
  statusCode : Option Nat := none
  error : Option String := none
  severity : Severity
  message : String
deriving DecidableEq, Repr

/-- Outcome of `makeRequest`: it resolves with the final status code after
redirect following, or rejects with a coded network error (DNS failure,
refused or reset connection, timeout, ...). -/
inductive MakeRequestResult where
  | status (code : Nat)
  | netError (code message : String)
deriving DecidableEq, Repr

/-- Do the characters of `pat` occur as a prefix of `s`. -/
def startsWithChars : List Char → List Char → Bool
  | [], _ => true
  | _ :: _, [] => false
  | p :: ps, c :: cs => (p == c) && startsWithChars ps cs

/-- Do the characters of `pat` occur contiguously inside `s`. -/
def containsSub (pat : List Char) : List Char → Bool
  | [] => pat.isEmpty
  | c :: rest => startsWithChars pat (c :: rest) || containsSub pat rest

/-- Model of JS `s.includes(pat)`. -/
def strIncludes (s pat : String) : Bool := containsSub pat.data s.data

/-- Embedding of `UrlValidator.categorizeError` for a rejection carrying
an error `code` (empty when the JS error has no `code`) and `message`. -/
def categorizeError (code message : String) : String :=
  if code = "ENOTFOUND" then "DNS lookup failed - Invalid domain"
  else if code = "ETIMEDOUT" then "Connection timeout - Unreachable"
  else if code = "ECONNREFUSED" then "Connection refused - Server not responding"
  else if code = "ECONNRESET" then "Connection reset - Server closed connection"
  else if strIncludes message "Invalid URL" then "Invalid URL format"
  else if code = "CERT_HAS_EXPIRED" || strIncludes message "certificate" then "SSL certificate error"
  else if code ≠ "" then "Network error: " ++ code
  else "Connection error: " ++ message

/-- Embedding of `UrlValidator.checkUrl`, with the outcome of
`makeRequest` passed explicitly: URL-syntax and scheme validation happen
before `net` is consulted, a resolved status is classified as
success (2xx), warning (401/403), or error (404 and everything else), and
a rejection is caught and classified as an error; the function is total,
so `checkUrl` never rejects. -/
def checkUrl (url : String) (net : MakeRequestResult) : UrlCheckResult :=
  match parseUrl url with
  | none =>
    { url := url, accessible := false, error := some "Invalid URL format",
      severity := Severity.error, message := "Invalid URL format" }
  | some p =>
    if p.scheme ≠ "http" ∧ p.scheme ≠ "https" then
      { url := url, accessible := false, error := some "Unsupported protocol",
        severity := Severity.error,
        message := "Unsupported protocol: " ++ p.scheme ++ ":. Only HTTP/HTTPS supported" }
    else
      match net with
      | MakeRequestResult.status c =>
        if 200 ≤ c ∧ c < 300 then
          { url := url, accessible := true, statusCode := some c,
            severity := Severity.success, message := "Accessible" }
        else if c = 401 ∨ c = 403 then
          { url := url, accessible := false, statusCode := some c,
            severity := Severity.warning,
            message := "Private/Access Denied - Expected for private repositories" }
        else if c = 404 then
          { url := url, accessible := false, statusCode := some c, error := some "Not Found",
            severity := Severity.error, message := "Not Found - URL is broken" }
        else
          { url := url, accessible := false, statusCode := some c,
            error := some ("HTTP " ++ toString c),
            severity := Severity.error, message := "HTTP Error " ++ toString c }
      | MakeRequestResult.netError code msg =>
        { url := url, accessible := false, error := some msg,
          severity := Severity.error, message := categorizeError code msg }

/-- Embedding of `UrlValidator.checkUrls`: one `checkUrl` per input URL;
`Promise.all` is modelled by its contract of returning the results in
input order. -/
def checkUrls (urls : List String) (net : String → MakeRequestResult) : List UrlCheckResult :=
  urls.map (fun u => checkUrl u (net u))

/-- What one HTTP hop of `makeRequest` observes for a URL: a response
with a status code and an optional already-resolved `Location` header, or
a request error. -/
inductive HttpReply where
  | reply (statusCode : Nat) (location : Option String)
  | fail (code message : String)

/-- The redirect codes `makeRequest` follows. -/
def isRedirectCode (c : Nat) : Bool := c == 301 || c == 302 || c == 307 || c == 308

/-- Embedding of the recursive `makeRequest` with explicit fuel: the
source recursion has no depth bound of its own, so `none` means the
recursion is still following redirects after `fuel` hops.  A response
whose code is 301/302/307/308 and which carries a `Location` header is
followed; everything else resolves. -/
def makeRequestFuel : Nat → String → (String → HttpReply) → Option MakeRequestResult
  | 0, _, _ => none
  | n + 1, url, net =>
    match net url with
    | HttpReply.fail c m => some (MakeRequestResult.netError c m)
    | HttpReply.reply c loc =>
      if isRedirectCode c then
        match loc with
        | some l => makeRequestFuel n l net
        | none => some (MakeRequestResult.status c)
      else some (MakeRequestResult.status c)

/-- Does the URL pass `checkUrl`'s pre-network validation (parseable, and
scheme http or https)? -/
def validHttpUrl (url : String) : Bool :=
  match parseUrl url with
  | some p => p.scheme == "http" || p.scheme == "https"
  | none => false

/-- `checkUrl` with the network modelled per hop: an invalid URL or bad
scheme resolves immediately without a request; otherwise the result is
the classification of `makeRequest`'s outcome, when that recursion
resolves within the given fuel. -/
def checkUrlFuel (n : Nat) (url : String) (net : String → HttpReply) : Option UrlCheckResult :=
  if validHttpUrl url then (makeRequestFuel n url net).map (fun o => checkUrl url o)
  else some (checkUrl url (MakeRequestResult.netError "" ""))

/-- The URL one redirect hop moves to, when the reply is a followable
redirect. -/
def redirectTarget (net : String → HttpReply) (url : String) : Option String :=
  match net url with
  | HttpReply.reply c (some l) => if isRedirectCode c then some l else none
  | _ => none

/-- One step along the redirect chain (stays put on a terminal reply). -/
def chainStep (net : String → HttpReply) (url : String) : String :=
  (redirectTarget net url).getD url

/-! ## Claim C5 -/

/-- C5 (amended): `checkUrl` never rejects, and whenever its request
settles — `net` is the final outcome of `makeRequest`, which by the
redirect-chain analysis of this file does not happen for every input —
the severity of the result is success exactly for a final status in
[200, 300), warning exactly for 401 or 403, and error in every other
case; a syntactically invalid URL or a non-http/https scheme yields the
error severity, without any network request being issued: the result
does not depend on the network at all. -/
theorem c5_checkUrl_classification (url : String) (net : MakeRequestResult) :
    (∀ p, parseUrl url = some p → (p.scheme = "http" ∨ p.scheme = "https") →
      (((checkUrl url net).severity = Severity.success ↔
          ∃ c, net = MakeRequestResult.status c ∧ 200 ≤ c ∧ c < 300) ∧
        ((checkUrl url net).severity = Severity.warning ↔
          net = MakeRequestResult.status 401 ∨ net = MakeRequestResult.status 403) ∧
        ((checkUrl url net).severity = Severity.error ↔
          ¬(∃ c, net = MakeRequestResult.status c ∧ 200 ≤ c ∧ c < 300) ∧
          ¬(net = MakeRequestResult.status 401 ∨ net = MakeRequestResult.status 403)))) ∧
    ((parseUrl url = none ∨ ∃ p, parseUrl url = some p ∧ p.scheme ≠ "http" ∧ p.scheme ≠ "https") →
      (checkUrl url net).severity = Severity.error ∧
      ∀ net2, checkUrl url net = checkUrl url net2) := by
  constructor
  · intro p hp hscheme
    have hcond : ¬(p.scheme ≠ "http" ∧ p.scheme ≠ "https") := by
      rintro ⟨h1, h2⟩
      rcases hscheme with h | h
      · exact h1 h
      · exact h2 h
    cases net with
    | status c =>
      by_cases h2xx : 200 ≤ c ∧ c < 300
      · have hw : ¬(c = 401 ∨ c = 403) := by omega
        simp [checkUrl, hp, hcond, h2xx, hw]
      · by_cases hwarn : c = 401 ∨ c = 403
        · simp [checkUrl, hp, hcond, h2xx, hwarn]
        · by_cases h404 : c = 404
          · simp [checkUrl, hp, hcond, h2xx, hwarn, h404]
          · simp [checkUrl, hp, hcond, h2xx, hwarn, h404]
    | netError code msg =>
      simp [checkUrl, hp, hcond]
  · rintro (hnone | ⟨p, hp, h1, h2⟩)
    · exact ⟨by simp [checkUrl, hnone], fun net2 => by simp [checkUrl, hnone]⟩
    · exact ⟨by simp [checkUrl, hp, h1, h2], fun net2 => by simp [checkUrl, hp, h1, h2]⟩

/-- C5 witness: `https://example.com/hub` parses with scheme https, a
final status of 200 classifies as success, 403 as warning and 404 as
error; `not-a-valid-url` yields an error independent of the network. -/
theorem c5_witness :
    (checkUrl "https://example.com/hub" (MakeRequestResult.status 200)).severity =
      Severity.success ∧
    (checkUrl "https://example.com/hub" (MakeRequestResult.status 403)).severity =
      Severity.warning ∧
    (checkUrl "https://example.com/hub" (MakeRequestResult.status 404)).severity =
      Severity.error ∧
    (checkUrl "not-a-valid-url" (MakeRequestResult.status 200)).severity = Severity.error := by
  refine ⟨?_, ?_, ?_, ?_⟩
  · exact ((c5_checkUrl_classification "https://example.com/hub" (MakeRequestResult.status 200)).1
      ⟨"https", "example.com", "/hub"⟩ (by decide) (Or.inr rfl)).1.mpr ⟨200, rfl, by omega, by omega⟩
  · exact ((c5_checkUrl_classification "https://example.com/hub" (MakeRequestResult.status 403)).1
      ⟨"https", "example.com", "/hub"⟩ (by decide) (Or.inr rfl)).2.1.mpr (Or.inr rfl)
  · exact ((c5_checkUrl_classification "https://example.com/hub" (MakeRequestResult.status 404)).1
      ⟨"https", "example.com", "/hub"⟩ (by decide) (Or.inr rfl)).2.2.mpr
      ⟨by rintro ⟨c, hc, h⟩; cases hc; omega, by rintro (h | h) <;> cases h⟩
  · exact ((c5_checkUrl_classification "not-a-valid-url" (MakeRequestResult.status 200)).2
      (Or.inl (by decide))).1

/-! ## Claim C8 -/

/-- C8: `checkUrls` returns exactly one result per input URL, in input
order — the i-th result is `checkUrl` of the i-th URL — and the result at
a position depends only on that URL's own network outcome, so one URL's
failure cannot change another's result. -/
theorem c8_checkUrls_order (urls : List String) (net net2 : String → MakeRequestResult) :
    (checkUrls urls net).length = urls.length ∧
    (∀ i : Nat, (checkUrls urls net)[i]? = urls[i]?.map (fun u => checkUrl u (net u))) ∧
    (∀ i : Nat, ∀ u, urls[i]? = some u → net u = net2 u →
      (checkUrls urls net)[i]? = (checkUrls urls net2)[i]?) := by
  refine ⟨by simp [checkUrls], fun i => by simp [checkUrls], ?_⟩
  intro i u hu hnet
  simp [checkUrls, hu, hnet]

/-- A network in which the second example URL fails with a DNS error and
the others succeed. -/
def c8Net : String → MakeRequestResult := fun u =>
  if u = "https://example.com/bad" then MakeRequestResult.netError "ENOTFOUND" "getaddrinfo ENOTFOUND"
  else MakeRequestResult.status 200

/-- A network in which every URL succeeds. -/
def c8NetAllOk : String → MakeRequestResult := fun _ => MakeRequestResult.status 200

/-- C8 witness: on a concrete two-URL list the batch has length two, the
first result is `checkUrl` of the first URL, and since the two networks
agree on the first URL, its result is unchanged by the second URL's DNS
failure. -/
theorem c8_witness :
    (checkUrls ["https://example.com/good", "https://example.com/bad"] c8Net).length = 2 ∧
    (checkUrls ["https://example.com/good", "https://example.com/bad"] c8Net)[0]? =
      some (checkUrl "https://example.com/good" (c8Net "https://example.com/good")) ∧
    (checkUrls ["https://example.com/good", "https://example.com/bad"] c8Net)[0]? =
      (checkUrls ["https://example.com/good", "https://example.com/bad"] c8NetAllOk)[0]? := by
  refine ⟨?_, ?_, ?_⟩
  · exact (c8_checkUrls_order ["https://example.com/good", "https://example.com/bad"] c8Net c8Net).1
  · exact ((c8_checkUrls_order ["https://example.com/good", "https://example.com/bad"] c8Net
      c8Net).2.1 0).trans (by rfl)
  · exact (c8_checkUrls_order ["https://example.com/good", "https://example.com/bad"] c8Net
      c8NetAllOk).2.2 0 "https://example.com/good" rfl (by decide)


/-! ## Claim C9 -/

/-- Fuel monotonicity of the redirect follower: a run that resolves keeps
resolving to the same outcome with more fuel. -/
theorem makeRequestFuel_mono {net : String → HttpReply} :
    ∀ {n : Nat} {url : String} {o : MakeRequestResult}, makeRequestFuel n url net = some o →
      ∀ {m : Nat}, n ≤ m → makeRequestFuel m url net = some o := by
  intro n
  induction n with
  | zero => intro url o h; simp [makeRequestFuel] at h
  | succ n ih =>
    intro url o h m hm
    obtain ⟨m2, rfl⟩ : ∃ m2, m = m2 + 1 := ⟨m - 1, by omega⟩
    have hn : n ≤ m2 := by omega
    cases hnet : net url with
    | fail c msg =>
      simp [makeRequestFuel, hnet] at h ⊢
      exact h
    | reply c loc =>
      by_cases hr : isRedirectCode c
      · cases loc with
        | some l =>
          simp [makeRequestFuel, hnet, hr] at h ⊢
          exact ih h hn
        | none =>
          simp [makeRequestFuel, hnet, hr] at h ⊢
          exact h
      · simp [makeRequestFuel, hnet, hr] at h ⊢
        exact h

/-- If the redirect follower resolves, the redirect chain reaches a
terminal URL in finitely many hops. -/
theorem resolved_reaches_terminal {net : String → HttpReply} :
    ∀ (n : Nat) (url : String) (o : MakeRequestResult), makeRequestFuel n url net = some o →
      ∃ k, redirectTarget net ((chainStep net)^[k] url) = none := by
  intro n
  induction n with
  | zero => intro url o h; simp [makeRequestFuel] at h
  | succ n ih =>
    intro url o h
    cases hnet : net url with
    | fail c msg => exact ⟨0, by simp [redirectTarget, hnet]⟩
    | reply c loc =>
      by_cases hr : isRedirectCode c
      · cases loc with
        | some l =>
          simp [makeRequestFuel, hnet, hr] at h
          obtain ⟨k, hk⟩ := ih l o h
          refine ⟨k + 1, ?_⟩
          have hstep : chainStep net url = l := by simp [chainStep, redirectTarget, hnet, hr]
          rw [Function.iterate_succ_apply, hstep]
          exact hk
        | none => exact ⟨0, by simp [redirectTarget, hnet]⟩
      · cases loc with
        | some l => exact ⟨0, by simp [redirectTarget, hnet, hr]⟩
        | none => exact ⟨0, by simp [redirectTarget, hnet]⟩

/-- A URL whose reply is not a followable redirect resolves with one unit
of fuel. -/
theorem terminal_resolves_once {net : String → HttpReply} {url : String}
    (h : redirectTarget net url = none) :
    ∃ o, makeRequestFuel 1 url net = some o := by
  cases hnet : net url with
  | fail c m => exact ⟨MakeRequestResult.netError c m, by simp [makeRequestFuel, hnet]⟩
  | reply c loc =>
    by_cases hr : isRedirectCode c
    · cases loc with
      | some l => simp [redirectTarget, hnet, hr] at h
      | none => exact ⟨MakeRequestResult.status c, by simp [makeRequestFuel, hnet, hr]⟩
    · exact ⟨MakeRequestResult.status c, by simp [makeRequestFuel, hnet, hr]⟩

/-- If the redirect chain reaches a terminal URL after `k` hops, the
follower resolves with fuel `k + 1`. -/
theorem terminal_implies_resolved {net : String → HttpReply} :
    ∀ (k : Nat) (url : String), redirectTarget net ((chainStep net)^[k] url) = none →
      ∃ o, makeRequestFuel (k + 1) url net = some o := by
  intro k
  induction k with
  | zero => intro url h; exact terminal_resolves_once h
  | succ k ih =>
    intro url h
    rw [Function.iterate_succ_apply] at h
    cases hterm : redirectTarget net url with
    | none =>
      obtain ⟨o, ho⟩ := terminal_resolves_once hterm
      exact ⟨o, makeRequestFuel_mono ho (by omega)⟩
    | some l =>
      have hstep : chainStep net url = l := by simp [chainStep, hterm]
      rw [hstep] at h
      obtain ⟨o, ho⟩ := ih l h
      cases hnet : net url with
      | fail c m => simp [redirectTarget, hnet] at hterm
      | reply c loc =>
        cases loc with
        | none => simp [redirectTarget, hnet] at hterm
        | some l2 =>
          by_cases hr : isRedirectCode c
          · have hl : l2 = l := by
              simp [redirectTarget, hnet, hr] at hterm
              exact hterm
            refine ⟨o, ?_⟩
            simp [makeRequestFuel, hnet, hr, hl]
            exact ho
          · simp [redirectTarget, hnet, hr] at hterm

/-- C9 (amended): the validator's redirect recursion has no depth bound
of its own (the underlying Node request stack does not follow redirects),
so `checkUrl` resolves exactly when the URL fails pre-network validation
or its redirect chain reaches a non-redirect outcome — a response that is
not 301/302/307/308, a redirect without a `Location` header, or a request
error — after finitely many hops; in particular a cyclic redirect chain
never resolves. -/
theorem c9_redirect_resolution (url : String) (net : String → HttpReply) :
    (∃ n r, checkUrlFuel n url net = some r) ↔
      (validHttpUrl url = false ∨
        ∃ k, redirectTarget net ((chainStep net)^[k] url) = none) := by
  by_cases hv : validHttpUrl url
  · constructor
    · rintro ⟨n, r, hr⟩
      simp only [checkUrlFuel, hv, if_pos] at hr
      rcases Option.map_eq_some'.mp hr with ⟨o, ho, -⟩
      exact Or.inr (resolved_reaches_terminal n url o ho)
    · rintro (hfalse | ⟨k, hk⟩)
      · simp [hv] at hfalse
      · obtain ⟨o, ho⟩ := terminal_implies_resolved k url hk
        exact ⟨k + 1, checkUrl url o, by simp [checkUrlFuel, hv, ho]⟩
  · constructor
    · intro _
      exact Or.inl (by simpa using hv)
    · intro _
      exact ⟨0, checkUrl url (MakeRequestResult.netError "" ""), by simp [checkUrlFuel, hv]⟩

/-- A network with a two-cycle of 301 redirects between two URLs. -/
def cycNet : String → HttpReply := fun u =>
  if u = "https://a.example/" then HttpReply.reply 301 (some "https://b.example/")
  else if u = "https://b.example/" then HttpReply.reply 301 (some "https://a.example/")
  else HttpReply.reply 200 none

/-- On the redirect two-cycle the follower never resolves, whatever the
fuel. -/
theorem cycNet_loops : ∀ n : Nat,
    makeRequestFuel n "https://a.example/" cycNet = none ∧
    makeRequestFuel n "https://b.example/" cycNet = none := by
  intro n
  induction n with
  | zero => exact ⟨rfl, rfl⟩
  | succ n ih =>
    have ha : cycNet "https://a.example/" = HttpReply.reply 301 (some "https://b.example/") := by
      simp [cycNet]
    have hb : cycNet "https://b.example/" = HttpReply.reply 301 (some "https://a.example/") := by
      simp [cycNet]
    constructor
    · simp [makeRequestFuel, ha, isRedirectCode]
      exact ih.2
    · simp [makeRequestFuel, hb, isRedirectCode]
      exact ih.1

/-- C9 counterexample: the claim as stated — `checkUrl` resolves even for
a cyclic redirect chain — fails on the code: on a concrete two-cycle of
301 redirects the unbounded recursion never resolves, for any amount of
fuel. -/
theorem c9_counterexample :
    ¬∃ n r, checkUrlFuel n "https://a.example/" cycNet = some r := by
  rintro ⟨n, r, hr⟩
  have hv : validHttpUrl "https://a.example/" = true := by decide
  simp [checkUrlFuel, hv, (cycNet_loops n).1] at hr

/-- A network replying 200 with no redirect to every request. -/
def c9OkNet : String → HttpReply := fun _ => HttpReply.reply 200 none

/-- C9 witness: a valid URL whose chain is terminal immediately resolves. -/
theorem c9_witness :
    ∃ n r, checkUrlFuel n "https://example.com/hub" c9OkNet = some r :=
  (c9_redirect_resolution "https://example.com/hub" c9OkNet).mpr (Or.inr ⟨0, rfl⟩)

/-- C5 counterexample: the claim's opening universal — for every input,
`checkUrl` resolves to a result — fails on the code: on the concrete
301 two-cycle network, `checkUrl` of a syntactically valid https URL
never resolves, for any amount of fuel, so no severity is ever
produced. -/
theorem c5_counterexample :
    ¬∃ n r, checkUrlFuel n "https://b.example/" cycNet = some r := by
  rintro ⟨n, r, hr⟩
  have hv : validHttpUrl "https://b.example/" = true := by decide
  simp [checkUrlFuel, hv, (cycNet_loops n).2] at hr

/-! ## OlafCompetenciesAdapter.ts -/

/-- One entry of the git tree listing returned by the GitHub trees API. -/
structure TreeNode where
  path : String
  type : String
deriving DecidableEq, Repr

/-- The fields of a parsed `competency-manifest.json` the adapter reads;
a field a manifest lacks is `none`. -/
structure OlafManifest where
  id : Option String := none
  name : Option String := none
  version : Option String := none
  description : Option String := none
  author : Option String := none
  tags : Option (List String) := none
deriving DecidableEq, Repr

/-- The adapter state the embedded methods read: the source's id, URL and
name, and the resolved config (branch, basePath, collectionFilter, with
the constructor defaults already applied). -/
structure OlafAdapterState where
  sourceId : String
  sourceUrl : String
  sourceName : String
  branch : String
  basePath : String
  collectionFilter : String
deriving DecidableEq, Repr

/-- The `Bundle` fields the adapter constructs (optional fields of the
TypeScript interface are `Option`). -/
structure Bundle where
  id : String
  name : String
  version : String
  description : String
  author : String
  sourceId : String
  environments : List String
  tags : List String
  downloads : Option Nat := none
  rating : Option Nat := none
  lastUpdated : String
  size : String
  dependencies : List String
  homepage : Option String := none
  repository : Option String := none
  license : String
  manifestUrl : String
  downloadUrl : String
deriving DecidableEq, Repr

/-- Model of the base-path cleanup regex replacement in `fetchBundles`:
strip leading and trailing slash runs. -/
def trimSlashes (s : String) : String :=
  String.mk (((s.data.dropWhile (fun c => c = '/')).reverse.dropWhile (fun c => c = '/')).reverse)

/-- Model of JS `s.startsWith(pat)`. -/
def strStartsWith (s pat : String) : Bool := startsWithChars pat.data s.data

/-- Model of JS `s.endsWith(pat)`. -/
def strEndsWith (s pat : String) : Bool := startsWithChars pat.data.reverse s.data.reverse

/-- Model of `path.substring(0, path.lastIndexOf('/'))`: the directory
part of a slash-separated path, empty when there is no slash (JS
`substring` clamps the negative index to zero). -/
def dirOf (p : String) : String :=
  let r := p.data.reverse
  if r.any (fun c => c = '/') then String.mk (((r.dropWhile (fun c => c ≠ '/')).drop 1).reverse)
  else ""

/-- Model of `s.split('/')[0]`. -/
def firstSegment (s : String) : String := String.mk (s.data.takeWhile (fun c => c ≠ '/'))

/-- Model of `s.substring(n)` (clamped at the end of the string). -/
def strDrop (s : String) (n : Nat) : String := String.mk (s.data.drop n)

/-- The manifest-discovery loop of `fetchBundles`: collect the directory
of every blob under the base path whose path ends in
`competency-manifest.json`, deduplicated in insertion order (the JS
`Set`). -/
def locateCompetencyDirs (tree : List TreeNode) (base : String) : List String :=
  let hits := tree.filterMap (fun node =>
    if node.type == "blob" && strStartsWith node.path base &&
        strEndsWith node.path "competency-manifest.json"
    then some (dirOf node.path) else none)
  hits.foldl (fun acc d => if d ∈ acc then acc else acc ++ [d]) []

/-- The optional collection filter of `fetchBundles`: keep a directory
when the trimmed filter is empty or equals the first path segment after
the base path. -/
def filterDirs (dirs : List String) (base filter0 : String) : List String :=
  let f := filter0.trim
  dirs.filter (fun p => if f = "" then true else firstSegment (strDrop p (base.length + 1)) == f)

/-- Truthiness of an optional manifest string field, the model of the
guard `!manifest?.field`. -/
def nonEmptyStr (x : Option String) : Bool :=
  match x with
  | some s => !(s == "")
  | none => false

/-- The bundle literal `fetchBundles` pushes for a well-formed manifest. -/
def mkOlafBundle (st : OlafAdapterState) (m : OlafManifest) (murl now : String) : Bundle :=
  { id := m.id.getD "", name := m.name.getD "", version := m.version.getD "",
    description := jsOrElse m.description "OLAF competency",
    author := jsOrElse m.author "Unknown",
    sourceId := st.sourceId,
    environments := ["any"],
    tags := m.tags.getD [],
    downloads := some 0, rating := some 0,
    lastUpdated := now, size := "n/a", dependencies := [],
    homepage := some st.sourceUrl, repository := some st.sourceUrl,
    license := "Unknown", manifestUrl := murl, downloadUrl := murl }

/-- The placeholder bundle the outer catch of `fetchBundles` returns. -/
def olafPlaceholder (st : OlafAdapterState) (now : String) : Bundle :=
  { id := st.sourceId ++ "-placeholder", name := "OLAF Competencies (placeholder)",
    version := "0.0.0",
    description := "Configure repo/branch/basePath to load real competencies",
    author := "System", sourceId := st.sourceId, environments := ["any"],
    tags := ["olaf"], lastUpdated := now, size := "n/a", dependencies := [],
    license := "Unknown", manifestUrl := st.sourceUrl, downloadUrl := st.sourceUrl }

/-- The per-directory loop of `fetchBundles`: `fetch dir` models
`fetchJson` of that directory's manifest URL, with `Except.error`
covering a failed fetch and a JSON parse failure alike; such a directory,
or one whose manifest lacks a truthy id, name or version, is skipped with
a logged warning, and every other directory contributes one bundle.  The
manifest URL builder `murl` models `rawGitHubUrl` applied to the
directory. -/
def olafCollect (st : OlafAdapterState) (now : String) (murl : String → String)
    (fetch : String → Except String OlafManifest) : List String → List Bundle
  | [] => []
  | dir :: rest =>
    match fetch dir with
    | Except.error _ => olafCollect st now murl fetch rest
    | Except.ok m =>
      if nonEmptyStr m.id && nonEmptyStr m.name && nonEmptyStr m.version then
        mkOlafBundle st m (murl dir) now :: olafCollect st now murl fetch rest
      else olafCollect st now murl fetch rest

/-- Embedding of `fetchBundles` past its cache check, as a function of
the fetched git tree (`Except.error` is a failure of
`parseGitHubUrl`/`fetchGitTree`, producing the placeholder list): locate
manifest directories, apply the collection filter, and collect one bundle
per well-formed manifest. -/
def olafFetchBundles (st : OlafAdapterState) (now : String) (murl : String → String)
    (fetch : String → Except String OlafManifest) (treeRes : Except String (List TreeNode)) :
    List Bundle :=
  match treeRes with
  | Except.error _ => [olafPlaceholder st now]
  | Except.ok tree =>
    let base := trimSlashes st.basePath
    olafCollect st now murl fetch (filterDirs (locateCompetencyDirs tree base) base st.collectionFilter)

/-- The collection loop keeps exactly the well-formed manifests, as a
`filterMap` over the located directories. -/
theorem olafCollect_eq_filterMap (st : OlafAdapterState) (now : String)
    (murl : String → String) (fetch : String → Except String OlafManifest)
    (dirs : List String) :
    olafCollect st now murl fetch dirs =
      dirs.filterMap (fun dir =>
        match fetch dir with
        | Except.ok m =>
          if nonEmptyStr m.id && nonEmptyStr m.name && nonEmptyStr m.version then
            some (mkOlafBundle st m (murl dir) now)
          else none
        | Except.error _ => none) := by
  induction dirs with
  | nil => rfl
  | cons d rest ih =>
    cases hf : fetch d with
    | error e => simp [olafCollect, hf, ih]
    | ok m =>
      by_cases hg : (nonEmptyStr m.id && nonEmptyStr m.name && nonEmptyStr m.version) = true
      · have hgp : (nonEmptyStr m.id = true ∧ nonEmptyStr m.name = true) ∧
            nonEmptyStr m.version = true := by
          simpa [Bool.and_eq_true] using hg
        simp [olafCollect, hf, hg, hgp, ih]
      · rw [Bool.not_eq_true] at hg
        have hgp : ¬((nonEmptyStr m.id = true ∧ nonEmptyStr m.name = true) ∧
            nonEmptyStr m.version = true) := by
          rintro ⟨⟨h1, h2⟩, h3⟩
          rw [h1, h2, h3] at hg
          exact absurd hg (by decide)
        simp [olafCollect, hf, hg, hgp, ih]

/-- The collection loop returns one bundle per well-formed manifest. -/
theorem olafCollect_length (st : OlafAdapterState) (now : String)
    (murl : String → String) (fetch : String → Except String OlafManifest)
    (dirs : List String) :
    (olafCollect st now murl fetch dirs).length =
      (dirs.filter (fun dir =>
        match fetch dir with
        | Except.ok m => nonEmptyStr m.id && nonEmptyStr m.name && nonEmptyStr m.version
        | Except.error _ => false)).length := by
  induction dirs with
  | nil => rfl
  | cons d rest ih =>
    cases hf : fetch d with
    | error e => simp [olafCollect, hf, ih]
    | ok m =>
      by_cases hg : (nonEmptyStr m.id && nonEmptyStr m.name && nonEmptyStr m.version) = true
      · have hgp : (nonEmptyStr m.id = true ∧ nonEmptyStr m.name = true) ∧
            nonEmptyStr m.version = true := by
          simpa [Bool.and_eq_true] using hg
        simp [olafCollect, hf, hg, hgp, ih]
      · rw [Bool.not_eq_true] at hg
        have hgp : ¬((nonEmptyStr m.id = true ∧ nonEmptyStr m.name = true) ∧
            nonEmptyStr m.version = true) := by
          rintro ⟨⟨h1, h2⟩, h3⟩
          rw [h1, h2, h3] at hg
          exact absurd hg (by decide)
        simp [olafCollect, hf, hg, hgp, ih]

/-! ## Claim C7 -/

/-- C7: over any fetched repository tree, a manifest whose fetch or JSON
parse fails, or which lacks a truthy id, name or version, is skipped, and
the returned list still contains exactly one bundle per remaining
well-formed manifest, in order — the collection is total, so a malformed
item never aborts the fetch or empties its result. -/
theorem c7_olaf_fetch_tolerates_malformed (st : OlafAdapterState) (now : String)
    (murl : String → String) (fetch : String → Except String OlafManifest)
    (tree : List TreeNode) :
    olafFetchBundles st now murl fetch (Except.ok tree) =
      (filterDirs (locateCompetencyDirs tree (trimSlashes st.basePath)) (trimSlashes st.basePath)
          st.collectionFilter).filterMap (fun dir =>
        match fetch dir with
        | Except.ok m =>
          if nonEmptyStr m.id && nonEmptyStr m.name && nonEmptyStr m.version then
            some (mkOlafBundle st m (murl dir) now)
          else none
        | Except.error _ => none) ∧
    (olafFetchBundles st now murl fetch (Except.ok tree)).length =
      ((filterDirs (locateCompetencyDirs tree (trimSlashes st.basePath)) (trimSlashes st.basePath)
          st.collectionFilter).filter (fun dir =>
        match fetch dir with
        | Except.ok m => nonEmptyStr m.id && nonEmptyStr m.name && nonEmptyStr m.version
        | Except.error _ => false)).length :=
  ⟨olafCollect_eq_filterMap st now murl fetch _, olafCollect_length st now murl fetch _⟩

/-! ## Claim C10 -/

/-- Model of Node `Buffer.from(s)`: the UTF-8 bytes of the string. -/
def bufferFrom (s : String) : List Nat := strBytes s

/-- Embedding of `OlafCompetenciesAdapter.downloadBundle`: the method
ignores its receiver state and the requested bundle and returns
`Buffer.from('')`. -/
def olafDownloadBundle (_st : OlafAdapterState) (_b : Bundle) : List Nat := bufferFrom ""

/-- C10: `downloadBundle` resolves to a zero-byte buffer for every bundle
and every adapter state, so the unified install path receives no bytes
from this adapter. -/
theorem c10_olaf_download_empty (st : OlafAdapterState) (b : Bundle) :
    olafDownloadBundle st b = [] ∧ (olafDownloadBundle st b).length = 0 :=
  ⟨rfl, rfl⟩

end PromptRegistry

